import Mathlib

/-!
Shallow embedding of the Scanner-Gate file manager (toastersss/Scanner-Gate).

The repository holds four near-duplicate Python scripts under src/systems/.
The most evolved one is Semi-Final-Ui-Build.py; ModernFileManagerUI_pre_icons.py,
ModernFileManagerUI_pre_iconstesters.py and PreviewFileInterface.py are earlier
variants of the same program.  The definitions below are translated from those
sources; each definition carries a comment naming the file and lines it embeds.

Modelling conventions:
* timestamps and sizes are naturals;
* the file system is a map from path strings to optional contents;
* dialog answers (folder choices, yes/no confirmations) and the success of
  external filesystem calls are explicit boolean/optional parameters;
* Python str operations are modelled on the underlying character lists
  (ASCII case folding for str.lower, ASCII digits for the regex [0-9]+).
-/

namespace ScannerGate

/-- Model of Python str.lower, lowercasing character by character. -/
def py_lower (s : String) : String :=
  String.mk (s.toList.map Char.toLower)

/-- Model of Python str.endswith: the suffix test on the character lists. -/
def py_endswith (s suffix : String) : Bool :=
  List.isSuffixOf suffix.toList s.toList

/-- Model of Python str.strip: drop whitespace from both ends, structurally
on the character list. -/
def py_strip (s : String) : String :=
  String.mk
    (((s.toList.dropWhile Char.isWhitespace).reverse.dropWhile
        Char.isWhitespace).reverse)

/-- Model of os.path.basename: the part of the path after the last separator. -/
def basename (p : String) : String :=
  List.getLastD (p.split (fun c => c = '/')) p

/-- Model of os.path.join for one directory and one file name. -/
def joinPath (dir name : String) : String :=
  dir ++ "/" ++ name

/-- Model of the extension component os.path.splitext(name)[1]: the suffix of
the name starting at its last dot, where dots leading the name do not count as
extension separators. -/
def splitext_ext (name : String) : String :=
  let cs := name.toList
  let lead := cs.takeWhile (fun c => c = '.')
  let rest := cs.drop lead.length
  if rest.contains '.' then
    String.mk ('.' :: (rest.reverse.takeWhile (fun c => c ≠ '.')).reverse)
  else ""

/-- FileInfo, Semi-Final-Ui-Build.py lines 62-67: path, base name, modify time
and size read at scan time. -/
structure FileInfo where
  path : String
  name : String
  last_modified : Nat
  size : Nat
deriving DecidableEq, Repr

/-- Construction FileInfo(path) once both metadata reads succeeded
(Semi-Final-Ui-Build.py lines 63-67). -/
def mkFileInfo (path : String) (mtime size : Nat) : FileInfo :=
  ⟨path, basename path, mtime, size⟩

/-- One entry yielded by os.scandir: its path, whether it is a regular file,
and the result of reading (mtime, size); the stat field is none when the
metadata read raises, for example because the file was deleted mid-scan. -/
structure DirEntry where
  path : String
  is_file : Bool
  stat : Option (Nat × Nat)
deriving DecidableEq, Repr

/-- scan_directory, Semi-Final-Ui-Build.py lines 77-82 (identical in the three
other variants): iterate over the listing, keep regular files, and build a
FileInfo for each.  The FileInfo constructor reads mtime and size with no
try/except around it, so a failing metadata read raises out of the loop and
the whole scan aborts with that error. -/
def scan_directory : List DirEntry → Except String (List FileInfo)
  | [] => Except.ok []
  | e :: es =>
    if e.is_file then
      match e.stat with
      | none => Except.error e.path
      | some st =>
        match scan_directory es with
        | Except.error msg => Except.error msg
        | Except.ok rest => Except.ok (mkFileInfo e.path st.1 st.2 :: rest)
    else scan_directory es

/-! ### Natural sort key (Semi-Final-Ui-Build.py lines 358-361) -/

/-- Raw piece of re.split with the pattern ([0-9]+): either a run of
non-digit characters (possibly empty at the ends) or a run of digits. -/
inductive NatPiece where
  | nd (cs : List Char)
  | dg (cs : List Char)
deriving DecidableEq, Repr

/-- One step of rebuilding the pieces of re.split, consuming characters from
the right. -/
def pieceStep (c : Char) (acc : List NatPiece) : List NatPiece :=
  match acc with
  | NatPiece.nd s :: ps =>
    if c.isDigit then NatPiece.dg [c] :: NatPiece.nd s :: ps
    else NatPiece.nd (c :: s) :: ps
  | NatPiece.dg d :: ps =>
    if c.isDigit then NatPiece.dg (c :: d) :: ps
    else NatPiece.nd [c] :: NatPiece.dg d :: ps
  | [] => if c.isDigit then [NatPiece.dg [c]] else [NatPiece.nd [c]]

/-- Pieces of re.split with pattern ([0-9]+): alternating non-digit and digit
runs, beginning and ending with a (possibly empty) non-digit run. -/
def natPieces (cs : List Char) : List NatPiece :=
  let ps := cs.foldr pieceStep [NatPiece.nd []]
  match ps with
  | NatPiece.dg d :: rest => NatPiece.nd [] :: NatPiece.dg d :: rest
  | other => other

/-- Numeric value of a run of decimal digits, as computed by int(text). -/
def digitsVal (cs : List Char) : Nat :=
  cs.foldl (fun n c => 10 * n + (c.toNat - 48)) 0

/-- One element of the key list built by natural_key: int(text) when the piece
is a digit run, text.lower() otherwise. -/
inductive NatKeyPart where
  | num (n : Nat)
  | str (s : String)
deriving DecidableEq, Repr

/-- Conversion of one split piece, following
[int(text) if text.isdigit() else text.lower() for text in re.split(..., s)]. -/
def pieceKey : NatPiece → NatKeyPart
  | NatPiece.dg cs => NatKeyPart.num (digitsVal cs)
  | NatPiece.nd cs => NatKeyPart.str (py_lower (String.mk cs))

/-- natural_key, Semi-Final-Ui-Build.py lines 358-360. -/
def natural_key (s : String) : List NatKeyPart :=
  (natPieces s.toList).map pieceKey

/-- Strict comparison of two key elements, as Python compares them inside a
list comparison.  Python raises TypeError on a num/str mix; between two keys
produced by natural_key the mixed case never occurs at equal positions because
pieces alternate starting with a string, so the mixed case is fixed
arbitrarily (num before str) to obtain a total comparison. -/
def partLtb : NatKeyPart → NatKeyPart → Bool
  | NatKeyPart.num a, NatKeyPart.num b => decide (a < b)
  | NatKeyPart.num _, NatKeyPart.str _ => true
  | NatKeyPart.str _, NatKeyPart.num _ => false
  | NatKeyPart.str a, NatKeyPart.str b => decide (a < b)

/-- Strict comparison of two key lists, as Python compares lists: scan to the
first differing element and compare there; a strict prefix is smaller. -/
def keyLtb : List NatKeyPart → List NatKeyPart → Bool
  | _, [] => false
  | [], _ :: _ => true
  | a :: as, b :: bs => if a = b then keyLtb as bs else partLtb a b

/-- The sort comparison of Semi-Final-Ui-Build.py line 361, as the reflexive
closure of the strict order on the key (-last_modified, natural_key(name)):
descending modify time first, ascending natural name order on ties. -/
def fileLeb (f g : FileInfo) : Bool :=
  decide (g.last_modified < f.last_modified) ||
    (decide (f.last_modified = g.last_modified) &&
      (keyLtb (natural_key f.name) (natural_key g.name) ||
        decide (natural_key f.name = natural_key g.name)))

/-- Propositional form of fileLeb. -/
def fileLe (f g : FileInfo) : Prop := fileLeb f g = true

instance fileLeDecidable : DecidableRel fileLe :=
  fun f g => instDecidableEqBool (fileLeb f g) true

/-- files.sort(key=lambda f: (-f.last_modified.timestamp(), natural_key(f.name))),
Semi-Final-Ui-Build.py line 361, modelled as a stable sort by that key. -/
def sortFiles (l : List FileInfo) : List FileInfo :=
  List.insertionSort fileLe l

/-- The earlier comparison files.sort(key=lambda f: f.last_modified, reverse=True),
ModernFileManagerUI_pre_icons.py line 230: descending modify time only. -/
def preFileLe (f g : FileInfo) : Prop := g.last_modified ≤ f.last_modified

instance preFileLeDecidable : DecidableRel preFileLe :=
  fun f g => Nat.decLe g.last_modified f.last_modified

/-- Sort of ModernFileManagerUI_pre_icons.py line 230, modelled as a stable
sort: files with equal modify time keep their scan order. -/
def preSortFiles (l : List FileInfo) : List FileInfo :=
  List.insertionSort preFileLe l

/-! ### New-arrival tracker -/

/-- Tracker state held by FileManagerUI in Semi-Final-Ui-Build.py: new_files
and displayed_files (lines 173-174) plus the first_scan_done guard (line 116). -/
structure Tracker where
  new_files : Finset String
  displayed_files : Finset String
  first_scan_done : Bool
deriving DecidableEq

/-- State right after FileManagerUI.__init__ set the three fields
(Semi-Final-Ui-Build.py lines 116, 173-174). -/
def initTracker : Tracker := ⟨∅, ∅, false⟩

/-- Tracker core of FileManagerUI.refresh_files, Semi-Final-Ui-Build.py
lines 355 and 362-371, together with the flag actually rendered by the
display loop of lines 376-381: the returned set holds the names shown with
the [NEW] tag, that is the names of new_files present in the snapshot. -/
def refresh_tracker (t : Tracker) (current_names : Finset String) :
    Tracker × Finset String :=
  let t2 : Tracker :=
    if t.first_scan_done = false then
      ⟨∅, current_names, true⟩
    else
      ⟨t.new_files ∪ (current_names \ t.displayed_files), current_names, true⟩
  (t2, t2.new_files ∩ current_names)

/-- Clearing the [NEW] flag on first click, Semi-Final-Ui-Build.py
lines 205-211 (same removal in on_tree_motion of
ModernFileManagerUI_pre_icons.py lines 409-421): remove the name from
new_files when present. -/
def acknowledge (t : Tracker) (name : String) : Tracker :=
  if name ∈ t.new_files then
    { t with new_files := t.new_files.erase name }
  else t

/-- Tracker state of the pre-icons variant, which has no first-scan guard
(ModernFileManagerUI_pre_icons.py lines 70-71). -/
structure PreTracker where
  new_files : Finset String
  displayed_files : Finset String
deriving DecidableEq

/-- State right after __init__ of the pre-icons variant. -/
def initPreTracker : PreTracker := ⟨∅, ∅⟩

/-- Tracker core of refresh_files in ModernFileManagerUI_pre_icons.py
lines 228-234 with the rendered flags of lines 237-242: every refresh,
including the very first one, flags current_names minus the previously
displayed names. -/
def pre_refresh_tracker (t : PreTracker) (current_names : Finset String) :
    PreTracker × Finset String :=
  let t2 : PreTracker :=
    ⟨t.new_files ∪ (current_names \ t.displayed_files), current_names⟩
  (t2, t2.new_files ∩ current_names)

/-! ### Disposition workflow (Semi-Final-Ui-Build.py lines 567-717) -/

/-- File system state: contents stored at each path, none when absent. -/
def FS : Type := String → Option String

/-- Settings record persisted in scanner_settings.json
(Semi-Final-Ui-Build.py lines 244-248). -/
structure Settings where
  default_folder : String
  default_storage : String
  default_dest_start : String
deriving DecidableEq, Repr

/-- Extension-retention step shared by do_delete, do_retain and do_storage in
Semi-Final-Ui-Build.py (lines 589-594, 613-618, 649-654): when the entered
name does not end with the original extension under case folding, append that
extension. -/
def apply_extension (new_name orig_ext : String) : String :=
  if py_endswith (py_lower new_name) (py_lower orig_ext) then new_name
  else new_name ++ orig_ext

/-- Model of shutil.copy2(src, dst): fails when the source is absent or the
oracle flag reports an external failure; on success the destination holds the
source contents and nothing else changes. -/
def copy2 (fs : FS) (src dst : String) (ok : Bool) : Option FS :=
  match fs src with
  | none => none
  | some content =>
    if ok then some (fun p => if p = dst then some content else fs p)
    else none

/-- Model of os.remove(path): fails when the file is absent or the oracle
flag reports an external failure; on success the path becomes absent. -/
def removeFile (fs : FS) (path : String) (ok : Bool) : Option FS :=
  match fs path with
  | none => none
  | some _ =>
    if ok then some (fun p => if p = path then none else fs p)
    else none

/-- Record of the mutating filesystem calls a workflow performed, each with
its success flag. -/
inductive FsOp where
  | copy (src dst : String) (ok : Bool)
  | remove (path : String) (ok : Bool)
deriving DecidableEq, Repr

/-- Outcome of the Retain-Scan-in-storage workflow.  noName models the empty
name warning, cancelled the aborted destination dialog, configError the
messagebox No default storage location set in settings, the two copy failures
the corresponding showerror calls, deleteFailedButContinued the failure of
os.remove after which the code still opens the folders and refreshes. -/
inductive StorageOutcome where
  | noName
  | cancelled
  | configError
  | copyDestFailed
  | copyStorageFailed
  | deleteFailedButContinued
  | completed
deriving DecidableEq, Repr

/-- do_storage, Semi-Final-Ui-Build.py lines 647-701 (the same logic appears
in ModernFileManagerUI_pre_iconstesters.py lines 537-592).  destChoice is the
answer of the destination dialog (none when cancelled); destOk, storOk and
remOk are the external success oracles of the two copies and the removal.
Returns the final file system, the trace of attempted mutations, and the
outcome. -/
def do_storage (file : FileInfo) (entryText : String) (settings : Settings)
    (destChoice : Option String) (destOk storOk remOk : Bool) (fs : FS) :
    FS × List FsOp × StorageOutcome :=
  let new_name := py_strip entryText
  let orig_ext := splitext_ext file.name
  if new_name = "" then (fs, [], StorageOutcome.noName)
  else
    let new_name := apply_extension new_name orig_ext
    let default_storage := settings.default_storage
    match destChoice with
    | none => (fs, [], StorageOutcome.cancelled)
    | some dest_dir =>
      if default_storage = "" then (fs, [], StorageOutcome.configError)
      else
        let dest_path := joinPath dest_dir new_name
        let storage_path := joinPath default_storage new_name
        match copy2 fs file.path dest_path destOk with
        | none =>
          (fs, [FsOp.copy file.path dest_path false], StorageOutcome.copyDestFailed)
        | some fs1 =>
          match copy2 fs1 file.path storage_path storOk with
          | none =>
            (fs1, [FsOp.copy file.path dest_path true,
                   FsOp.copy file.path storage_path false],
             StorageOutcome.copyStorageFailed)
          | some fs2 =>
            match removeFile fs2 file.path remOk with
            | none =>
              (fs2, [FsOp.copy file.path dest_path true,
                     FsOp.copy file.path storage_path true,
                     FsOp.remove file.path false],
               StorageOutcome.deleteFailedButContinued)
            | some fs3 =>
              (fs3, [FsOp.copy file.path dest_path true,
                     FsOp.copy file.path storage_path true,
                     FsOp.remove file.path true],
               StorageOutcome.completed)

/-- Outcome of the Delete-Scan workflow; a copy failure is reported through
the trace and the flow continues to the delete confirmation. -/
inductive DeleteOutcome where
  | noName
  | declined
  | deleteFailed
  | deleted
deriving DecidableEq, Repr

/-- do_delete, Semi-Final-Ui-Build.py lines 586-610.  wantCopy is the answer
of the Copy Before Delete question, copyDestChoice the copy folder dialog
answer, confirmDelete the answer of the delete confirmation; copyOk and remOk
are the external success oracles.  A failing copy shows an error and the flow
still proceeds to the delete confirmation. -/
def do_delete (file : FileInfo) (entryText : String) (wantCopy : Bool)
    (copyDestChoice : Option String) (copyOk : Bool) (confirmDelete : Bool)
    (remOk : Bool) (fs : FS) : FS × List FsOp × DeleteOutcome :=
  let new_name := py_strip entryText
  let orig_ext := splitext_ext file.name
  if new_name = "" then (fs, [], DeleteOutcome.noName)
  else
    let new_name := apply_extension new_name orig_ext
    let afterCopy : FS × List FsOp :=
      if wantCopy then
        match copyDestChoice with
        | some dest_dir =>
          let new_path := joinPath dest_dir new_name
          match copy2 fs file.path new_path copyOk with
          | none => (fs, [FsOp.copy file.path new_path false])
          | some fs1 => (fs1, [FsOp.copy file.path new_path true])
        | none => (fs, [])
      else (fs, [])
    if confirmDelete then
      match removeFile afterCopy.1 file.path remOk with
      | none =>
        (afterCopy.1, afterCopy.2 ++ [FsOp.remove file.path false],
         DeleteOutcome.deleteFailed)
      | some fs2 =>
        (fs2, afterCopy.2 ++ [FsOp.remove file.path true], DeleteOutcome.deleted)
    else (afterCopy.1, afterCopy.2, DeleteOutcome.declined)

/-- Copy target used by do_delete of ModernFileManagerUI_pre_icons.py
lines 297-309: the stripped entry text joined to the chosen folder, with no
extension handling at all (none when the entry is empty and the workflow
warns and aborts). -/
def pre_icons_delete_copy_target (entryText dest_dir : String) : Option String :=
  let new_name := py_strip entryText
  if new_name = "" then none
  else some (joinPath dest_dir new_name)

/-! ### Refresh loop (Semi-Final-Ui-Build.py lines 349-350 and 718-722) -/

/-- UI state relevant to the refresh loop: the tracker and the absolute time
at which the pending after(5000, ...) callback will fire. -/
structure UiState where
  tracker : Tracker
  next_tick : Option Nat
deriving DecidableEq

/-- auto_refresh, Semi-Final-Ui-Build.py lines 718-722: run refresh_files,
then schedule the next tick 5000 ms after the current instant. -/
def auto_refresh (s : UiState) (now : Nat) (current_names : Finset String) :
    UiState :=
  ⟨(refresh_tracker s.tracker current_names).1, some (now + 5000)⟩

/-- The Reload button, Semi-Final-Ui-Build.py lines 349-350: its command is
refresh_files itself, so it runs the same refresh step and leaves the pending
timer callback untouched. -/
def manual_reload (s : UiState) (_now : Nat) (current_names : Finset String) :
    UiState :=
  ⟨(refresh_tracker s.tracker current_names).1, s.next_tick⟩

/-! ### Derived definitions and fixtures used by the statements -/

/-- Whether a workflow trace contains an attempted os.remove call. -/
def hasRemoveOp (ops : List FsOp) : Bool :=
  ops.any (fun op =>
    match op with
    | FsOp.remove _ _ => true
    | FsOp.copy _ _ _ => false)

/-- Iterated refresh cycles: fold refresh_tracker over a list of snapshots. -/
def refreshAll (t : Tracker) (snapshots : List (Finset String)) : Tracker :=
  snapshots.foldl (fun t2 s => (refresh_tracker t2 s).1) t

/-- The snapshot a fully successful scan produces: one record per
regular-file entry of the listing, in listing order. -/
def okSnapshot (entries : List DirEntry) : List FileInfo :=
  entries.filterMap (fun e =>
    if e.is_file then e.stat.map (fun st => mkFileInfo e.path st.1 st.2)
    else none)

/-- Three files with identical modification time whose names exercise the
natural ordering. -/
def exampleFiles : List FileInfo :=
  [⟨"scans/file10", "file10", 100, 1⟩,
   ⟨"scans/file2", "file2", 100, 1⟩,
   ⟨"scans/file1", "file1", 100, 1⟩]

/-- A directory listing in which the metadata read of the middle entry fails,
as when that file is deleted between enumeration and stat. -/
def exListing : List DirEntry :=
  [⟨"d/a.txt", true, some (1, 10)⟩,
   ⟨"d/b.txt", true, none⟩,
   ⟨"d/c.txt", true, some (2, 20)⟩]

/-- Concrete file used by the workflow witnesses. -/
def exFile : FileInfo := ⟨"scans/a.txt", "a.txt", 0, 0⟩

/-- Concrete file system holding only the file at scans/a.txt. -/
def exFs : FS := fun p => if p = "scans/a.txt" then some "data" else none

/-! ### Order lemmas for the sort comparison -/

theorem partLtb_trans {a b c : NatKeyPart} (h1 : partLtb a b = true)
    (h2 : partLtb b c = true) : partLtb a c = true := by
  cases a <;> cases b <;> cases c <;>
    simp only [partLtb, decide_eq_true_eq, Bool.false_eq_true] at h1 h2 ⊢ <;>
    first
    | omega
    | exact h1.elim
    | exact h2.elim
    | exact lt_trans h1 h2

theorem partLtb_asymm {a b : NatKeyPart} (h1 : partLtb a b = true)
    (h2 : partLtb b a = true) : False := by
  cases a <;> cases b <;>
    simp only [partLtb, decide_eq_true_eq, Bool.false_eq_true] at h1 h2 <;>
    first
    | omega
    | exact h1.elim
    | exact h2.elim
    | exact absurd h2 (not_lt_of_lt h1)

theorem partLtb_trichot (a b : NatKeyPart) :
    partLtb a b = true ∨ a = b ∨ partLtb b a = true := by
  cases a <;> cases b <;>
    simp only [partLtb, decide_eq_true_eq, Bool.false_eq_true,
      NatKeyPart.num.injEq, NatKeyPart.str.injEq] <;>
    first
    | omega
    | exact Or.inl trivial
    | exact Or.inr (Or.inr trivial)
    | exact lt_trichotomy _ _

theorem keyLtb_trans : ∀ {x y z : List NatKeyPart}, keyLtb x y = true →
    keyLtb y z = true → keyLtb x z = true := by
  intro x
  induction x with
  | nil =>
    intro y z h1 h2
    cases y with
    | nil => simp [keyLtb] at h1
    | cons b bs =>
      cases z with
      | nil => simp [keyLtb] at h2
      | cons c cs => simp [keyLtb]
  | cons a as ih =>
    intro y z h1 h2
    cases y with
    | nil => simp [keyLtb] at h1
    | cons b bs =>
      cases z with
      | nil => simp [keyLtb] at h2
      | cons c cs =>
        simp only [keyLtb] at h1 h2 ⊢
        by_cases hab : a = b
        · subst hab
          rw [if_pos rfl] at h1
          by_cases hac : a = c
          · subst hac
            rw [if_pos rfl] at h2 ⊢
            exact ih h1 h2
          · rw [if_neg hac] at h2 ⊢
            exact h2
        · rw [if_neg hab] at h1
          by_cases hbc : b = c
          · subst hbc
            rw [if_neg hab]
            exact h1
          · rw [if_neg hbc] at h2
            by_cases hac : a = c
            · rw [← hac] at h2
              exact (partLtb_asymm h1 h2).elim
            · rw [if_neg hac]
              exact partLtb_trans h1 h2

theorem partLtb_ne {a b : NatKeyPart} (h : partLtb a b = true) : a ≠ b := by
  intro hx
  subst hx
  exact partLtb_asymm h h

theorem keyLtb_trichot : ∀ (x y : List NatKeyPart),
    keyLtb x y = true ∨ x = y ∨ keyLtb y x = true := by
  intro x
  induction x with
  | nil =>
    intro y
    cases y with
    | nil => exact Or.inr (Or.inl rfl)
    | cons b bs => exact Or.inl (by simp [keyLtb])
  | cons a as ih =>
    intro y
    cases y with
    | nil => exact Or.inr (Or.inr (by simp [keyLtb]))
    | cons b bs =>
      rcases partLtb_trichot a b with hp | hp | hp
      · refine Or.inl ?_
        simp only [keyLtb]
        rw [if_neg (partLtb_ne hp)]
        exact hp
      · subst hp
        rcases ih bs with hk | hk | hk
        · exact Or.inl (by simp only [keyLtb, if_pos rfl]; exact hk)
        · exact Or.inr (Or.inl (by rw [hk]))
        · exact Or.inr (Or.inr (by simp only [keyLtb, if_pos rfl]; exact hk))
      · refine Or.inr (Or.inr ?_)
        simp only [keyLtb]
        rw [if_neg (partLtb_ne hp)]
        exact hp

theorem fileLeb_iff (f g : FileInfo) : fileLeb f g = true ↔
    g.last_modified < f.last_modified ∨
      (f.last_modified = g.last_modified ∧
        (keyLtb (natural_key f.name) (natural_key g.name) = true ∨
          natural_key f.name = natural_key g.name)) := by
  simp [fileLeb, Bool.or_eq_true, Bool.and_eq_true, decide_eq_true_eq]

theorem fileLe_total : ∀ f g : FileInfo, fileLe f g ∨ fileLe g f := by
  intro f g
  show fileLeb f g = true ∨ fileLeb g f = true
  rcases Nat.lt_trichotomy g.last_modified f.last_modified with h | h | h
  · exact Or.inl ((fileLeb_iff f g).mpr (Or.inl h))
  · rcases keyLtb_trichot (natural_key f.name) (natural_key g.name) with hk | hk | hk
    · exact Or.inl ((fileLeb_iff f g).mpr (Or.inr ⟨h.symm, Or.inl hk⟩))
    · exact Or.inl ((fileLeb_iff f g).mpr (Or.inr ⟨h.symm, Or.inr hk⟩))
    · exact Or.inr ((fileLeb_iff g f).mpr (Or.inr ⟨h, Or.inl hk⟩))
  · exact Or.inr ((fileLeb_iff g f).mpr (Or.inl h))

theorem fileLe_trans : ∀ f g k : FileInfo, fileLe f g → fileLe g k → fileLe f k := by
  intro f g k h1 h2
  replace h1 := (fileLeb_iff f g).mp h1
  replace h2 := (fileLeb_iff g k).mp h2
  show fileLeb f k = true
  refine (fileLeb_iff f k).mpr ?_
  rcases h1 with h1 | ⟨h1m, h1k⟩
  · rcases h2 with h2 | ⟨h2m, _⟩
    · exact Or.inl (lt_trans h2 h1)
    · exact Or.inl (by omega)
  · rcases h2 with h2 | ⟨h2m, h2k⟩
    · exact Or.inl (by omega)
    · refine Or.inr ⟨by omega, ?_⟩
      rcases h1k with h1k | h1k
      · rcases h2k with h2k | h2k
        · exact Or.inl (keyLtb_trans h1k h2k)
        · exact Or.inl (h2k ▸ h1k)
      · rcases h2k with h2k | h2k
        · exact Or.inl (h1k ▸ h2k)
        · exact Or.inr (h1k.trans h2k)

theorem sortFiles_sorted (l : List FileInfo) : List.Sorted fileLe (sortFiles l) :=
  @List.sorted_insertionSort FileInfo fileLe fileLeDecidable
    ⟨fileLe_total⟩ ⟨fileLe_trans⟩ l

/-! ### Helper lemmas about the filesystem model and the tracker -/

theorem copy2_src_eq {fs fs2 : FS} {src dst : String} {ok : Bool}
    (h : copy2 fs src dst ok = some fs2) : fs2 src = fs src := by
  unfold copy2 at h
  cases hs : fs src with
  | none => rw [hs] at h; exact absurd h (by simp)
  | some content =>
    rw [hs] at h
    cases ok with
    | false => exact absurd h (by simp)
    | true =>
      simp only [if_true] at h
      cases h
      by_cases hd : src = dst
      · simp [hd, hs]
      · simp [hd, hs]

theorem acknowledge_fields (t : Tracker) (name : String) :
    acknowledge t name =
      ⟨t.new_files.erase name, t.displayed_files, t.first_scan_done⟩ := by
  unfold acknowledge
  by_cases h : name ∈ t.new_files
  · rw [if_pos h]
  · rw [if_neg h, Finset.erase_eq_of_not_mem h]

theorem foldl_acknowledge (l : List String) (t : Tracker) :
    l.foldl acknowledge t =
      ⟨t.new_files \ l.toFinset, t.displayed_files, t.first_scan_done⟩ := by
  induction l generalizing t with
  | nil => simp
  | cons a l ih =>
    rw [List.foldl_cons, ih, acknowledge_fields]
    simp only [List.toFinset_cons, Tracker.mk.injEq, and_true, true_and]
    ext x
    simp only [Finset.mem_sdiff, Finset.mem_erase, Finset.mem_insert]
    tauto

theorem py_lower_append (a b : String) :
    py_lower (a ++ b) = py_lower a ++ py_lower b := by
  unfold py_lower
  apply String.ext
  simp [String.toList]

theorem py_endswith_append (a b : String) : py_endswith (a ++ b) b = true := by
  unfold py_endswith
  rw [List.isSuffixOf_iff_suffix]
  show b.data <:+ (a ++ b).data
  rw [String.data_append]
  exact List.suffix_append a.data b.data

/-! ### Claim theorems -/

/-- C1 (amended): in Semi-Final-Ui-Build the first refresh after the tracker
fields are created returns an empty flagged set and leaves new_files empty,
regardless of how many files the snapshot contains. -/
theorem claim_C1_main : ∀ names : Finset String,
    (refresh_tracker initTracker names).2 = ∅ ∧
    (refresh_tracker initTracker names).1.new_files = ∅ := by
  intro names
  constructor
  · simp [refresh_tracker, initTracker]
  · simp [refresh_tracker, initTracker]

/-- C1 counterexample: in the pre-icons variant, which has no first-scan
guard, the very first refresh flags every name of the snapshot, so the claim
as stated over the cited code is false: the flagged set of the first update
is nonempty. -/
theorem claim_C1_counterexample :
    (pre_refresh_tracker initPreTracker {"a.txt"}).2 = {"a.txt"} ∧
    (pre_refresh_tracker initPreTracker {"a.txt"}).2 ≠ (∅ : Finset String) := by
  constructor
  · simp [pre_refresh_tracker, initPreTracker]
  · simp [pre_refresh_tracker, initPreTracker]

/-- C5 (amended): in Semi-Final-Ui-Build every refreshed catalog is sorted by
the comparison descending modify time then ascending natural name order, and
on the example names with identical timestamps the order is file1, file2,
file10; the pre-icons variant sorts by modify time only, so its catalog
keeps the scan order file10, file2, file1 on those ties. -/
theorem claim_C5_main :
    (∀ l : List FileInfo, List.Sorted fileLe (sortFiles l)) ∧
    (sortFiles exampleFiles).map FileInfo.name =
      [("file1"), ("file2"), ("file10")] ∧
    (preSortFiles exampleFiles).map FileInfo.name =
      [("file10"), ("file2"), ("file1")] := by
  refine ⟨sortFiles_sorted, ?_, ?_⟩
  · decide
  · decide

/-- C5 counterexample: on the snapshot of files named file10, file2, file1
with identical modification times, the pre-icons catalog order is not the
natural order the claim requires. -/
theorem claim_C5_counterexample :
    (preSortFiles exampleFiles).map FileInfo.name ≠
      [("file1"), ("file2"), ("file10")] := by
  decide

/-- C9 (amended): the manual Reload button runs exactly the refresh step a
timer tick runs, but it leaves the pending timer callback unchanged, so the
next automatic tick stays at its originally scheduled time instead of moving
to five seconds after the manual reload. -/
theorem claim_C9_main : ∀ (s : UiState) (now : Nat) (names : Finset String),
    (manual_reload s now names).tracker = (auto_refresh s now names).tracker ∧
    (manual_reload s now names).next_tick = s.next_tick :=
  fun _ _ _ => ⟨rfl, rfl⟩

/-- C9 counterexample: with a tick pending at time 5000, a manual reload at
time 2000 leaves the next automatic tick at 5000, not at 2000 + 5000 as the
claim states. -/
theorem claim_C9_counterexample :
    (manual_reload ⟨initTracker, some 5000⟩ 2000 ∅).next_tick = some 5000 ∧
    (manual_reload ⟨initTracker, some 5000⟩ 2000 ∅).next_tick ≠
      some (2000 + 5000) := by
  constructor
  · rfl
  · intro h
    simp [manual_reload] at h

theorem refresh_tracker_of_done {t : Tracker} (h : t.first_scan_done = true)
    (names : Finset String) :
    refresh_tracker t names =
      (⟨t.new_files ∪ (names \ t.displayed_files), names, true⟩,
       (t.new_files ∪ (names \ t.displayed_files)) ∩ names) := by
  unfold refresh_tracker
  rw [h]
  simp

/-- C6: on an already-initialized tracker, refreshing twice with snapshots
having the same name set returns the same flagged set, minus exactly the
names acknowledged between the two refresh cycles; no name is spuriously
added when no file was added or removed. -/
theorem claim_C6_main : ∀ (t : Tracker) (names : Finset String) (l : List String),
    t.first_scan_done = true →
    (refresh_tracker (List.foldl acknowledge (refresh_tracker t names).1 l)
        names).2 =
      (refresh_tracker t names).2 \ l.toFinset := by
  intro t names l h
  rw [refresh_tracker_of_done h]
  dsimp only
  rw [foldl_acknowledge, refresh_tracker_of_done rfl]
  dsimp only
  ext x
  simp only [Finset.mem_inter, Finset.mem_sdiff, Finset.mem_union,
    List.mem_toFinset]
  tauto

/-- C6 witness: concrete initialized tracker, snapshot and acknowledgment
list instantiating the theorem. -/
theorem claim_C6_witness :
    (Tracker.mk {"a"} {"a"} true).first_scan_done = true ∧
    (refresh_tracker (List.foldl acknowledge
          (refresh_tracker (Tracker.mk {"a"} {"a"} true) {"a", "b"}).1 ["a"])
        {"a", "b"}).2 =
      (refresh_tracker (Tracker.mk {"a"} {"a"} true) {"a", "b"}).2 \
        (["a"] : List String).toFinset :=
  ⟨rfl, claim_C6_main (Tracker.mk {"a"} {"a"} true) {"a", "b"} ["a"] rfl⟩

theorem refresh_keeps_unflagged (t : Tracker) (name : String) (s : Finset String)
    (h1 : t.first_scan_done = true) (h2 : name ∉ t.new_files)
    (h3 : name ∈ t.displayed_files) (hs : name ∈ s) :
    (refresh_tracker t s).1.first_scan_done = true ∧
    name ∉ (refresh_tracker t s).1.new_files ∧
    name ∈ (refresh_tracker t s).1.displayed_files ∧
    name ∉ (refresh_tracker t s).2 := by
  rw [refresh_tracker_of_done h1]
  have hnew : name ∉ t.new_files ∪ (s \ t.displayed_files) := by
    simp only [Finset.mem_union, Finset.mem_sdiff]
    rintro (hc | hc)
    · exact h2 hc
    · exact hc.2 h3
  refine ⟨rfl, hnew, hs, ?_⟩
  intro hc
  exact hnew (Finset.mem_of_mem_inter_left hc)

theorem refreshAll_inv (name : String) : ∀ (l : List (Finset String)) (t : Tracker),
    t.first_scan_done = true → name ∉ t.new_files → name ∈ t.displayed_files →
    (∀ s ∈ l, name ∈ s) →
    (refreshAll t l).first_scan_done = true ∧
    name ∉ (refreshAll t l).new_files ∧
    name ∈ (refreshAll t l).displayed_files := by
  intro l
  induction l with
  | nil => exact fun t h1 h2 h3 _ => ⟨h1, h2, h3⟩
  | cons s l ih =>
    intro t h1 h2 h3 hall
    have hs : name ∈ s := hall s (List.mem_cons_self s l)
    have hstep := refresh_keeps_unflagged t name s h1 h2 h3 hs
    exact ih (refresh_tracker t s).1 hstep.1 hstep.2.1 hstep.2.2.1
      (fun s2 hs2 => hall s2 (List.mem_cons_of_mem s hs2))

/-- C10: once a name is acknowledged, no later refresh flags it again while
the file stays present in every subsequent snapshot: the name is outside
new_files after any prefix of the refresh sequence, and outside the flagged
set returned by each refresh in the sequence. -/
theorem claim_C10_main : ∀ (t : Tracker) (name : String)
    (ss : List (Finset String)),
    t.first_scan_done = true → name ∈ t.displayed_files →
    (∀ s ∈ ss, name ∈ s) →
    (∀ l1 l2, ss = l1 ++ l2 →
        name ∉ (refreshAll (acknowledge t name) l1).new_files) ∧
    (∀ l1 s l2, ss = l1 ++ s :: l2 →
        name ∉ (refresh_tracker (refreshAll (acknowledge t name) l1) s).2) := by
  intro t name ss h1 h3 hall
  have h0a : (acknowledge t name).first_scan_done = true := by
    rw [acknowledge_fields]
    exact h1
  have h0b : name ∉ (acknowledge t name).new_files := by
    rw [acknowledge_fields]
    exact Finset.not_mem_erase name t.new_files
  have h0c : name ∈ (acknowledge t name).displayed_files := by
    rw [acknowledge_fields]
    exact h3
  constructor
  · intro l1 l2 hsplit
    have hall1 : ∀ s ∈ l1, name ∈ s := by
      intro s hs
      refine hall s ?_
      rw [hsplit]
      exact List.mem_append_left l2 hs
    exact (refreshAll_inv name l1 (acknowledge t name) h0a h0b h0c hall1).2.1
  · intro l1 s l2 hsplit
    have hall1 : ∀ s2 ∈ l1, name ∈ s2 := by
      intro s2 hs2
      refine hall s2 ?_
      rw [hsplit]
      exact List.mem_append_left (s :: l2) hs2
    have hinv := refreshAll_inv name l1 (acknowledge t name) h0a h0b h0c hall1
    have hs : name ∈ s := by
      refine hall s ?_
      rw [hsplit]
      exact List.mem_append_right l1 (List.mem_cons_self s l2)
    exact (refresh_keeps_unflagged (refreshAll (acknowledge t name) l1) name s
      hinv.1 hinv.2.1 hinv.2.2 hs).2.2.2

/-- C10 witness: a flagged then acknowledged name, present in two further
snapshots, stays unflagged after each of them. -/
theorem claim_C10_witness :
    ("a" : String) ∉
      (refreshAll (acknowledge (Tracker.mk {"a"} {"a"} true) "a")
        [{"a"}]).new_files ∧
    ("a" : String) ∉
      (refresh_tracker
        (refreshAll (acknowledge (Tracker.mk {"a"} {"a"} true) "a") [{"a"}])
        {"a", "b"}).2 :=
  ⟨(claim_C10_main (Tracker.mk {"a"} {"a"} true) "a" [{"a"}, {"a", "b"}] rfl
      (by decide) (by decide)).1 [{"a"}] [{"a", "b"}] rfl,
   (claim_C10_main (Tracker.mk {"a"} {"a"} true) "a" [{"a"}, {"a", "b"}] rfl
      (by decide) (by decide)).2 [{"a"}] {"a", "b"} [] rfl⟩

/-- C4: with an empty defaultStorage setting, the Retain-Scan-in-storage
workflow performs no filesystem mutation at all (final file system and trace
unchanged and empty); and whenever the workflow gets past the name prompt and
the destination dialog it reports the missing-storage configuration error. -/
theorem claim_C4_main : ∀ (file : FileInfo) (entryText : String)
    (settings : Settings) (destChoice : Option String)
    (destOk storOk remOk : Bool) (fs : FS),
    settings.default_storage = "" →
    (do_storage file entryText settings destChoice destOk storOk remOk fs).1 = fs ∧
    (do_storage file entryText settings destChoice destOk storOk remOk fs).2.1 = [] ∧
    (py_strip entryText ≠ "" → ∀ d, destChoice = some d →
      (do_storage file entryText settings destChoice destOk storOk remOk fs).2.2 =
        StorageOutcome.configError) := by
  intro file entryText settings destChoice destOk storOk remOk fs hstor
  unfold do_storage
  dsimp only
  by_cases hname : py_strip entryText = ""
  · rw [if_pos hname]
    exact ⟨rfl, rfl, fun hcon _ _ => absurd hname hcon⟩
  · rw [if_neg hname]
    cases destChoice with
    | none =>
      refine ⟨rfl, rfl, ?_⟩
      intro _ d hcon
      exact absurd hcon (by simp)
    | some dest_dir =>
      dsimp only
      rw [if_pos hstor]
      exact ⟨rfl, rfl, fun _ d _ => rfl⟩

/-- C4 witness: concrete invocation with empty storage setting, a nonempty
entered name and a chosen destination: no mutation and the configuration
error is reported. -/
theorem claim_C4_witness :
    (Settings.mk "" "" "").default_storage = "" ∧
    (do_storage exFile "b" (Settings.mk "" "" "") (some "dest") true true true
        exFs).1 = exFs ∧
    (do_storage exFile "b" (Settings.mk "" "" "") (some "dest") true true true
        exFs).2.1 = [] ∧
    (do_storage exFile "b" (Settings.mk "" "" "") (some "dest") true true true
        exFs).2.2 = StorageOutcome.configError := by
  have h := claim_C4_main exFile "b" (Settings.mk "" "" "") (some "dest")
    true true true exFs rfl
  exact ⟨rfl, h.1, h.2.1, h.2.2 (by decide) "dest" rfl⟩

/-- C2: in the Retain-Scan-in-storage workflow, whenever either copy failed
no removal is attempted and the source path is untouched; and any attempted
removal comes after both copies succeeded, as recorded by the trace. -/
theorem claim_C2_main : ∀ (file : FileInfo) (entryText : String)
    (settings : Settings) (destChoice : Option String)
    (destOk storOk remOk : Bool) (fs : FS),
    (((do_storage file entryText settings destChoice destOk storOk remOk fs).2.2 =
          StorageOutcome.copyDestFailed ∨
        (do_storage file entryText settings destChoice destOk storOk remOk fs).2.2 =
          StorageOutcome.copyStorageFailed) →
      hasRemoveOp
          (do_storage file entryText settings destChoice destOk storOk remOk
            fs).2.1 = false ∧
        (do_storage file entryText settings destChoice destOk storOk remOk fs).1
            file.path = fs file.path) ∧
    (hasRemoveOp
        (do_storage file entryText settings destChoice destOk storOk remOk
          fs).2.1 = true →
      ∃ dp sp b,
        (do_storage file entryText settings destChoice destOk storOk remOk
            fs).2.1 =
          [FsOp.copy file.path dp true, FsOp.copy file.path sp true,
           FsOp.remove file.path b]) := by
  intro file entryText settings destChoice destOk storOk remOk fs
  unfold do_storage
  dsimp only
  by_cases hname : py_strip entryText = ""
  · rw [if_pos hname]
    exact ⟨fun h => absurd h (by simp), fun h => absurd h (by simp [hasRemoveOp])⟩
  · rw [if_neg hname]
    cases destChoice with
    | none =>
      exact ⟨fun h => absurd h (by simp), fun h => absurd h (by simp [hasRemoveOp])⟩
    | some dest_dir =>
      dsimp only
      by_cases hstor : settings.default_storage = ""
      · rw [if_pos hstor]
        exact ⟨fun h => absurd h (by simp),
          fun h => absurd h (by simp [hasRemoveOp])⟩
      · rw [if_neg hstor]
        cases hc1 : copy2 fs file.path
            (joinPath dest_dir
              (apply_extension (py_strip entryText) (splitext_ext file.name)))
            destOk with
        | none =>
          dsimp only
          exact ⟨fun _ => ⟨by simp [hasRemoveOp], rfl⟩,
            fun h => absurd h (by simp [hasRemoveOp])⟩
        | some fs1 =>
          dsimp only
          cases hc2 : copy2 fs1 file.path
              (joinPath settings.default_storage
                (apply_extension (py_strip entryText) (splitext_ext file.name)))
              storOk with
          | none =>
            dsimp only
            exact ⟨fun _ => ⟨by simp [hasRemoveOp], copy2_src_eq hc1⟩,
              fun h => absurd h (by simp [hasRemoveOp])⟩
          | some fs2 =>
            dsimp only
            cases hc3 : removeFile fs2 file.path remOk with
            | none =>
              dsimp only
              refine ⟨fun h => ?_, fun _ => ⟨_, _, false, rfl⟩⟩
              rcases h with h | h <;> exact absurd h (by simp)
            | some fs3 =>
              dsimp only
              refine ⟨fun h => ?_, fun _ => ⟨_, _, true, rfl⟩⟩
              rcases h with h | h <;> exact absurd h (by simp)

/-- C2 witness: the storage copy fails on a concrete run, so the trace holds
no removal and the original at scans/a.txt is unchanged. -/
theorem claim_C2_witness :
    ((do_storage exFile "b" (Settings.mk "" "stor" "") (some "dest") true false
          true exFs).2.2 = StorageOutcome.copyDestFailed ∨
      (do_storage exFile "b" (Settings.mk "" "stor" "") (some "dest") true false
          true exFs).2.2 = StorageOutcome.copyStorageFailed) ∧
    hasRemoveOp
        (do_storage exFile "b" (Settings.mk "" "stor" "") (some "dest") true
          false true exFs).2.1 = false ∧
    (do_storage exFile "b" (Settings.mk "" "stor" "") (some "dest") true false
        true exFs).1 exFile.path = exFs exFile.path := by
  have h := (claim_C2_main exFile "b" (Settings.mk "" "stor" "")
    (some "dest") true false true exFs).1 (Or.inr (by decide))
  exact ⟨Or.inr (by decide), h.1, h.2⟩

/-- C7: in the Delete-Scan workflow with a nonempty entered name, a removal
is attempted exactly when the deletion is confirmed, whatever the optional
copy did (so a failed copy never skips the deletion offer); and when the
confirmation is declined the original file at its source path is untouched. -/
theorem claim_C7_main : ∀ (file : FileInfo) (entryText : String)
    (wantCopy : Bool) (copyDestChoice : Option String) (copyOk : Bool)
    (confirmDelete : Bool) (remOk : Bool) (fs : FS),
    py_strip entryText ≠ "" →
    hasRemoveOp
        (do_delete file entryText wantCopy copyDestChoice copyOk confirmDelete
          remOk fs).2.1 = confirmDelete ∧
    (confirmDelete = false →
      (do_delete file entryText wantCopy copyDestChoice copyOk confirmDelete
          remOk fs).1 file.path = fs file.path) := by
  intro file entryText wantCopy copyDestChoice copyOk confirmDelete remOk fs hname
  unfold do_delete
  dsimp only
  rw [if_neg hname]
  have hcopy : ∀ afterCopy : FS × List FsOp,
      hasRemoveOp afterCopy.2 = false →
      afterCopy.1 file.path = fs file.path →
      hasRemoveOp
          (if confirmDelete then
            match removeFile afterCopy.1 file.path remOk with
            | none =>
              (afterCopy.1, afterCopy.2 ++ [FsOp.remove file.path false],
               DeleteOutcome.deleteFailed)
            | some fs2 =>
              (fs2, afterCopy.2 ++ [FsOp.remove file.path true],
               DeleteOutcome.deleted)
          else (afterCopy.1, afterCopy.2, DeleteOutcome.declined)).2.1 =
          confirmDelete ∧
      (confirmDelete = false →
        (if confirmDelete then
            match removeFile afterCopy.1 file.path remOk with
            | none =>
              (afterCopy.1, afterCopy.2 ++ [FsOp.remove file.path false],
               DeleteOutcome.deleteFailed)
            | some fs2 =>
              (fs2, afterCopy.2 ++ [FsOp.remove file.path true],
               DeleteOutcome.deleted)
          else (afterCopy.1, afterCopy.2, DeleteOutcome.declined)).1 file.path =
          fs file.path) := by
    intro afterCopy hops hsrc
    cases confirmDelete with
    | false =>
      rw [if_neg (by simp)]
      exact ⟨hops, fun _ => hsrc⟩
    | true =>
      rw [if_pos rfl]
      cases hrem : removeFile afterCopy.1 file.path remOk with
      | none =>
        refine ⟨?_, fun hcon => absurd hcon (by simp)⟩
        simp [hasRemoveOp]
      | some fs2 =>
        refine ⟨?_, fun hcon => absurd hcon (by simp)⟩
        simp [hasRemoveOp]
  cases wantCopy with
  | false =>
    exact hcopy (fs, []) (by simp [hasRemoveOp]) rfl
  | true =>
    cases copyDestChoice with
    | none => exact hcopy (fs, []) (by simp [hasRemoveOp]) rfl
    | some dest_dir =>
      dsimp only
      cases hc : copy2 fs file.path
          (joinPath dest_dir
            (apply_extension (py_strip entryText) (splitext_ext file.name)))
          copyOk with
      | none =>
        exact hcopy (fs, [FsOp.copy file.path
          (joinPath dest_dir
            (apply_extension (py_strip entryText) (splitext_ext file.name)))
          false]) (by simp [hasRemoveOp]) rfl
      | some fs1 =>
        exact hcopy (fs1, [FsOp.copy file.path
          (joinPath dest_dir
            (apply_extension (py_strip entryText) (splitext_ext file.name)))
          true]) (by simp [hasRemoveOp]) (copy2_src_eq hc)

/-- C7 witness: concrete run in which the optional copy fails and the
deletion confirmation is declined: no removal is attempted and the original
at scans/a.txt is unchanged. -/
theorem claim_C7_witness :
    py_strip ("b") ≠ "" ∧
    hasRemoveOp
        (do_delete exFile "b" true (some "dest") false false true exFs).2.1 =
      false ∧
    (do_delete exFile "b" true (some "dest") false false true exFs).1
        exFile.path = exFs exFile.path := by
  have h := claim_C7_main exFile "b" true (some "dest") false false true
    exFs (by decide)
  exact ⟨by decide, h.1, h.2 rfl⟩

theorem scan_directory_cons (e : DirEntry) (es : List DirEntry) :
    scan_directory (e :: es) =
      if e.is_file then
        match e.stat with
        | none => Except.error e.path
        | some st =>
          match scan_directory es with
          | Except.error msg => Except.error msg
          | Except.ok rest => Except.ok (mkFileInfo e.path st.1 st.2 :: rest)
      else scan_directory es := rfl

/-- C3 (amended): scan_directory returns a snapshot exactly when every
regular-file entry of the listing has readable metadata, and then the
snapshot holds one record per regular-file entry; when any metadata read
fails the whole scan aborts with an error instead of skipping that entry. -/
theorem claim_C3_main : ∀ entries : List DirEntry,
    ((∀ e ∈ entries, e.is_file = true → e.stat ≠ none) →
      scan_directory entries = Except.ok (okSnapshot entries)) ∧
    (∀ l, scan_directory entries = Except.ok l →
      ∀ e ∈ entries, e.is_file = true → e.stat ≠ none) := by
  intro entries
  induction entries with
  | nil =>
    constructor
    · intro _
      rfl
    · intro l _ e he
      exact absurd he (List.not_mem_nil e)
  | cons e es ih =>
    constructor
    · intro h
      have hes : ∀ e2 ∈ es, e2.is_file = true → e2.stat ≠ none :=
        fun e2 he2 => h e2 (List.mem_cons_of_mem e he2)
      cases hf : e.is_file with
      | false =>
        have : scan_directory (e :: es) = scan_directory es := by
          rw [scan_directory_cons, if_neg (by simp [hf])]
        rw [this, ih.1 hes]
        unfold okSnapshot
        rw [List.filterMap_cons]
        simp [hf, okSnapshot]
      | true =>
        cases hst : e.stat with
        | none => exact absurd hst (h e (List.mem_cons_self e es) hf)
        | some st =>
          have : scan_directory (e :: es) =
              match scan_directory es with
              | Except.error msg => Except.error msg
              | Except.ok rest =>
                Except.ok (mkFileInfo e.path st.1 st.2 :: rest) := by
            rw [scan_directory_cons, if_pos (by simp [hf]), hst]
          rw [this, ih.1 hes]
          unfold okSnapshot
          rw [List.filterMap_cons]
          simp [hf, hst, okSnapshot]
    · intro l hl e2 he2 hf2 hst2
      rcases List.mem_cons.mp he2 with he2 | he2
      · subst he2
        have : scan_directory (e2 :: es) = Except.error e2.path := by
          rw [scan_directory_cons, if_pos (by simp [hf2]), hst2]
        rw [this] at hl
        exact absurd hl (by simp)
      · cases hf : e.is_file with
        | false =>
          have heq : scan_directory (e :: es) = scan_directory es := by
            rw [scan_directory_cons, if_neg (by simp [hf])]
          rw [heq] at hl
          exact ih.2 l hl e2 he2 hf2 hst2
        | true =>
          cases hst : e.stat with
          | none =>
            have heq : scan_directory (e :: es) = Except.error e.path := by
              rw [scan_directory_cons, if_pos (by simp [hf]), hst]
            rw [heq] at hl
            exact absurd hl (by simp)
          | some st =>
            have heq : scan_directory (e :: es) =
                match scan_directory es with
                | Except.error msg => Except.error msg
                | Except.ok rest =>
                  Except.ok (mkFileInfo e.path st.1 st.2 :: rest) := by
              rw [scan_directory_cons, if_pos (by simp [hf]), hst]
            rw [heq] at hl
            cases hrest : scan_directory es with
            | error msg =>
              rw [hrest] at hl
              exact absurd hl (by simp)
            | ok rest =>
              exact ih.2 rest hrest e2 he2 hf2 hst2

/-- C3 witness: on a listing whose metadata reads all succeed, the scan
returns the full snapshot. -/
theorem claim_C3_witness :
    (∀ e ∈ ([⟨"d/a.txt", true, some (1, 10)⟩] : List DirEntry),
        e.is_file = true → e.stat ≠ none) ∧
    scan_directory [⟨"d/a.txt", true, some (1, 10)⟩] =
      Except.ok (okSnapshot [⟨"d/a.txt", true, some (1, 10)⟩]) :=
  ⟨by decide,
   (claim_C3_main [⟨"d/a.txt", true, some (1, 10)⟩]).1 (by decide)⟩

/-- C3 counterexample: with the middle entry of the listing failing its
metadata read, the scan aborts with an error; it does not return the
snapshot of the remaining two entries, so the claimed skip behavior is
false on the code. -/
theorem claim_C3_counterexample :
    scan_directory exListing = Except.error ("d/b.txt") ∧
    scan_directory exListing ≠
      Except.ok [mkFileInfo ("d/a.txt") 1 10, mkFileInfo ("d/c.txt") 2 20] := by
  constructor
  · rfl
  · intro h
    rw [show scan_directory exListing = Except.error ("d/b.txt") from rfl] at h
    exact absurd h (by simp)

/-- C8 (amended): the extension-retention step of the Semi-Final build
appends the original extension exactly when the entered name does not end
with it under case folding, and its result always carries that extension up
to case; the pre-icons delete workflow instead uses the entered name with no
extension handling. -/
theorem claim_C8_main : ∀ new_name orig_ext : String,
    (py_endswith (py_lower new_name) (py_lower orig_ext) = false →
      apply_extension new_name orig_ext = new_name ++ orig_ext) ∧
    py_endswith (py_lower (apply_extension new_name orig_ext))
        (py_lower orig_ext) = true ∧
    (py_endswith (py_lower new_name) (py_lower orig_ext) = true →
      apply_extension new_name orig_ext = new_name) := by
  intro new_name orig_ext
  unfold apply_extension
  by_cases h : py_endswith (py_lower new_name) (py_lower orig_ext) = true
  · rw [if_pos h]
    exact ⟨fun hcon => absurd h (by simp [hcon]), h, fun _ => rfl⟩
  · rw [if_neg h]
    refine ⟨fun _ => rfl, ?_, fun hcon => absurd hcon h⟩
    rw [py_lower_append]
    exact py_endswith_append (py_lower new_name) (py_lower orig_ext)

/-- C8 witness: the entered name b lacks the extension of a.txt, so the
Semi-Final step turns it into b.txt, which carries the extension. -/
theorem claim_C8_witness :
    py_endswith (py_lower ("b")) (py_lower (".txt")) = false ∧
    apply_extension "b" ".txt" = "b" ++ ".txt" ∧
    py_endswith (py_lower (apply_extension "b" ".txt"))
        (py_lower (".txt")) = true :=
  ⟨by decide,
   (claim_C8_main "b" ".txt").1 (by decide),
   (claim_C8_main "b" ".txt").2.1⟩

/-- C8 counterexample: in the pre-icons delete workflow the entered name b
for the original a.txt is used as-is: the copy target is dest/b, whose name
does not end with the original extension .txt, not even up to case. -/
theorem claim_C8_counterexample :
    pre_icons_delete_copy_target "b" "dest" = some ("dest/b") ∧
    splitext_ext ("a.txt") = (".txt") ∧
    py_endswith (py_lower ("b")) (py_lower (".txt")) = false ∧
    py_endswith ("dest/b") (".txt") = false := by
  refine ⟨?_, by decide, by decide, by decide⟩
  rfl

end ScannerGate
